import Mathlib

attribute [local semireducible] Rat.mul Rat.inv Rat.add Rat.sub

/-!
Verification development for a marketplace-polling notification bot
(`getgems.py`).  The Python source is shallowly embedded below:

* JSON-ish scalar values that flow through Python truthiness tests and
  `float(str(v))` parsing are modelled by `PyVal`;
* prices are modelled with `ℚ` (the code's arithmetic on floats is exact
  on all values the claims touch);
* Python `dict`s keyed by strings are modelled by association lists with
  unique keys built in insertion order;
* Python `set[str]` is modelled by `Finset String`;
* the `monitor` job body is modelled by the pure transition `tick`,
  taking the fetch outcome and a delivery oracle (`deliver k = false`
  means the k-th `send_message` call raises) as inputs.
-/

/-- A Python scalar value as it appears in the fetched JSON records:
`None` (also used for an absent dict key, since `dict.get` returns
`None` for those), a number, a string, or a boolean. -/
inductive PyVal where
  | vnone : PyVal
  | vnum : ℚ → PyVal
  | vstr : String → PyVal
  | vbool : Bool → PyVal
deriving DecidableEq

/-- Python truthiness of a `PyVal` (`bool(v)`). -/
def pyTruthy : PyVal → Bool
  | .vnone => false
  | .vnum q => if q = 0 then false else true
  | .vstr s => if s = "" then false else true
  | .vbool b => b

/-- Python `a or b`: the left operand if truthy, otherwise the right one. -/
def pyOr (a b : PyVal) : PyVal := if pyTruthy a then a else b

/-- Truthiness of an optional string (an absent value and `""` are falsy). -/
def strOptTruthy (o : Option String) : Bool :=
  match o with
  | some s => if s = "" then false else true
  | none => false

/-- Python `o or d` for a string-valued field with a string default. -/
def pyStrOr (o : Option String) (d : String) : String :=
  match o with
  | some s => if s = "" then d else s
  | none => d

/-- Numeric value of a decimal digit character. -/
def digVal (c : Char) : ℕ := c.toNat - 48

/-- Value of a list of decimal digit characters (most significant first). -/
def digitsToNat (l : List Char) : ℕ :=
  l.foldl (fun a c => a * 10 + digVal c) 0

/-- Decimal core of Python `float(s)` parsing: digits with an optional
fractional part (`"12"`, `"12.5"`, `"12."`, `".5"`).  Anything else fails. -/
def parseDecCore (l : List Char) : Option ℚ :=
  match l.span Char.isDigit with
  | (ip, []) => if ip.isEmpty then none else some (digitsToNat ip : ℚ)
  | (ip, '.' :: fp) =>
      if fp.all Char.isDigit ∧ ¬ (ip.isEmpty ∧ fp.isEmpty) then
        some ((digitsToNat ip : ℚ) + (digitsToNat fp : ℚ) / (10 : ℚ) ^ fp.length)
      else none
  | _ => none

/-- Optional leading sign in front of the decimal core. -/
def parseSigned (l : List Char) : Option ℚ :=
  match l with
  | '-' :: rest => (parseDecCore rest).map Neg.neg
  | '+' :: rest => parseDecCore rest
  | _ => parseDecCore l

/-- Python `str.strip()` on a character list: drop whitespace at both ends. -/
def stripChars (l : List Char) : List Char :=
  ((l.dropWhile Char.isWhitespace).reverse.dropWhile Char.isWhitespace).reverse

/-- Python `str.strip()`. -/
def pyStrip (s : String) : String := ⟨stripChars s.data⟩

/-- Python `float(s)` on a string (decimal-literal subset; surrounding
whitespace is ignored, as `float` does). -/
def parseDec (s : String) : Option ℚ := parseSigned (stripChars s.data)

/-- `float(str(v))`, returning `none` when the conversion raises
(`float("None")`, `float("True")` and non-numeric strings all raise). -/
def pyFloatStr : PyVal → Option ℚ
  | .vnone => none
  | .vnum q => some q
  | .vstr s => parseDec s
  | .vbool _ => none

/-- `ton_from_any` (getgems.py lines 39-48): `None` stays `None`; parse
`float(str(v))`, return `None` on failure; values above `1_000_000` are
taken to be nano-denominated and divided by `1e9`. -/
def ton_from_any (v : PyVal) : Option ℚ :=
  match v with
  | .vnone => none
  | _ =>
    match pyFloatStr v with
    | none => none
    | some x => if x > 1000000 then some (x / 1000000000) else some x

/-- Split a character list at the first occurrence of the two-character
separator `' '`, `'#'`: returns the part before and the part after it,
or `none` when the separator does not occur (models
`name.split(" #", 1)` combined with the `" #" in name` test). -/
def splitHash : List Char → Option (List Char × List Char)
  | [] => none
  | [_] => none
  | c1 :: c2 :: rest =>
      if c1 = ' ' ∧ c2 = '#' then some ([], rest)
      else
        match splitHash (c2 :: rest) with
        | some ab => some (c1 :: ab.1, ab.2)
        | none => none

/-- `extract_model` (getgems.py lines 51-54): the part of the name before
the first `" #"`, stripped; the whole stripped name when `" #"` is absent. -/
def extract_model (name : String) : String :=
  match splitHash name.data with
  | some ab => pyStrip ⟨ab.1⟩
  | none => pyStrip name

/-- `nft_link` (getgems.py lines 57-58). -/
def nft_link (addr : String) : String := "https://getgems.io/nft/" ++ addr

/-- The `sale` sub-record of a listing.  An absent or falsy `sale` value in
the source (`it.get("sale") or {}`) behaves exactly like a record whose
three price fields are all `None`, so it is represented that way. -/
structure Sale where
  fixPrice : PyVal
  price : PyVal
  fullPrice : PyVal
deriving DecidableEq

/-- One fetched listing.  `address`, `nftAddress` and `name` are string
fields (`none` models an absent key or JSON `null`). -/
structure Listing where
  address : Option String
  nftAddress : Option String
  name : Option String
  sale : Sale
deriving DecidableEq

/-- Raw price resolution in `build_market_avg` (getgems.py line 85):
`sale.get("fixPrice") or sale.get("price") or sale.get("fullPrice")`. -/
def buildRawPrice (s : Sale) : PyVal := pyOr s.fixPrice (pyOr s.price s.fullPrice)

/-- Raw price resolution in `format_listing` (getgems.py line 100):
`sale.get("fixPrice") or sale.get("price") or sale.get("fullPrice")`. -/
def formatRawPrice (s : Sale) : PyVal := pyOr s.fixPrice (pyOr s.price s.fullPrice)

/-- Modelled from the spec: the spec's words "first available of the
fixed-price field, the price field, and the full-price field" read as the
first field that is present and non-null, kept for comparison with the
source's `buildRawPrice`/`formatRawPrice`. -/
def specFirstAvailable (s : Sale) : PyVal :=
  if s.fixPrice ≠ .vnone then s.fixPrice
  else if s.price ≠ .vnone then s.price
  else s.fullPrice

/-- The contribution of one listing to the market map (getgems.py lines
83-89): its model key and normalized price, or `none` when the listing is
skipped (`if not name or price is None: continue`). -/
def build_contrib (it : Listing) : Option (String × ℚ) :=
  let name := pyStrOr it.name ""
  let price := ton_from_any (buildRawPrice it.sale)
  if name = "" then none
  else
    match price with
    | some p => some (extract_model name, p)
    | none => none

/-- `defaultdict(list)` append: add `p` to the group keyed `m`, creating
the key at the end (insertion order) when absent. -/
def addToGroup (g : List (String × List ℚ)) (m : String) (p : ℚ) :
    List (String × List ℚ) :=
  match g with
  | [] => [(m, [p])]
  | e :: rest => if e.1 = m then (e.1, e.2 ++ [p]) :: rest else e :: addToGroup rest m p

/-- One iteration of the `for it in items` loop of `build_market_avg`. -/
def groupStep (g : List (String × List ℚ)) (it : Listing) : List (String × List ℚ) :=
  match build_contrib it with
  | some mp => addToGroup g mp.1 mp.2
  | none => g

/-- The grouping phase of `build_market_avg`: `market` after the loop. -/
def build_groups (items : List Listing) : List (String × List ℚ) :=
  items.foldl groupStep []

/-- `sum(p) / len(p)`. -/
def listAvg (ps : List ℚ) : ℚ := ps.sum / ps.length

/-- `build_market_avg` (getgems.py lines 80-92) as an association list
with unique keys (a Python dict). -/
def build_market_avg (items : List Listing) : List (String × ℚ) :=
  (build_groups items).map (fun e => (e.1, listAvg e.2))

/-- Python `dict.get` on an association list with string keys. -/
def dictGet {β : Type} : List (String × β) → String → Option β
  | [], _ => none
  | e :: rest, k => if e.1 = k then some e.2 else dictGet rest k

/-- Floor of a rational number, computed from its reduced representation. -/
def ratFloor (q : ℚ) : ℤ := Int.fdiv q.num q.den

/-- Round to the nearest integer, ties to even (the rounding used by
Python's fixed-point formatting). -/
def roundHalfEven (q : ℚ) : ℤ :=
  if q - ratFloor q < 1 / 2 then ratFloor q
  else if q - ratFloor q > 1 / 2 then ratFloor q + 1
  else if ratFloor q % 2 = 0 then ratFloor q else ratFloor q + 1

/-- Decimal digit character. -/
def digChar (n : ℕ) : Char := Char.ofNat (48 + n)

/-- Decimal rendering of a natural number (fuelled, structural). -/
def natToStrAux : ℕ → ℕ → List Char
  | 0, _ => []
  | fuel + 1, n => if n < 10 then [digChar n] else natToStrAux fuel (n / 10) ++ [digChar (n % 10)]

/-- Decimal rendering of a natural number. -/
def natToStr (n : ℕ) : String := ⟨natToStrAux (n + 1) n⟩

/-- Python `f"{q:.df}"`: fixed-point rendering with `d` fractional digits. -/
def fmtFixed (d : ℕ) (q : ℚ) : String :=
  let n := roundHalfEven (q * (10 : ℚ) ^ d)
  let a := n.natAbs
  let fp := natToStr (a % 10 ^ d)
  (if n < 0 then "-" else "") ++ natToStr (a / 10 ^ d) ++ "." ++
    (⟨List.replicate (d - fp.length) '0'⟩ : String) ++ fp

/-- `f"{x:.2f}"`. -/
def fmt2 (q : ℚ) : String := fmtFixed 2 q

/-- `f"{x:.1f}"`. -/
def fmt1 (q : ℚ) : String := fmtFixed 1 q

/-- `it.get("address") or it.get("nftAddress")` (getgems.py lines 96, 184,
171, 146).  When the primary field is falsy the fallback value is returned
verbatim (possibly itself falsy). -/
def addrRaw (it : Listing) : Option String :=
  if strOptTruthy it.address then it.address else it.nftAddress

/-- A price or average rendered for the message: two decimals with the
unit suffix, or the em-dash placeholder when unresolved. -/
def priceText (o : Option ℚ) : String :=
  match o with
  | some p => fmt2 p ++ " TON"
  | none => "—"

/-- The directional market note (getgems.py lines 112-118): empty unless
both price and average are resolved and the average is nonzero. -/
def diffText (price avg : Option ℚ) : String :=
  match price, avg with
  | some p, some a =>
      if a ≠ 0 then
        let pct := (p / a - 1) * 100
        if pct < 0 then "\n🔥 Дешевле рынка на " ++ fmt1 |pct| ++ "%"
        else "\n⚠️ Дороже рынка на " ++ fmt1 pct ++ "%"
      else ""
  | _, _ => ""

/-- The fixed message template of `format_listing` (getgems.py lines
120-127). -/
def renderMsg (name priceStr avgStr diff link : String) : String :=
  "⚡ НОВЫЙ GIFTS ЛИСТИНГ\n" ++ name ++ "\nЦена: " ++ priceStr ++
    "\nСредняя по модели: " ++ avgStr ++ diff ++ "\n🔗 " ++ link

/-- `format_listing` (getgems.py lines 95-127). -/
def format_listing (it : Listing) (avg_map : List (String × ℚ)) : Option String :=
  let addr := addrRaw it
  let name := pyStrOr it.name "(no name)"
  let price := ton_from_any (formatRawPrice it.sale)
  if strOptTruthy addr = false then none
  else
    let avg := dictGet avg_map (extract_model name)
    some (renderMsg name (priceText price) (priceText avg) (diffText price avg)
      (nft_link (addr.getD "")))

/-- An upstream HTTP response as `fetch_gifts` sees it: status, body text,
and the parsed `response.items` list (`none` models a missing or null
nested list). -/
structure HttpResponse where
  status : ℕ
  text : String
  items : Option (List Listing)

/-- `s[:200]`. -/
def takeChars (n : ℕ) (s : String) : String := ⟨s.data.take n⟩

/-- `fetch_gifts` (getgems.py lines 62-76): non-200 raises a
`RuntimeError` carrying the status and a truncated body; otherwise the
nested item list (degrading to `[]`) is returned. -/
def fetch_gifts (r : HttpResponse) : Except String (List Listing) :=
  if r.status ≠ 200 then
    .error ("GetGems " ++ natToStr r.status ++ ": " ++ takeChars 200 r.text)
  else .ok (r.items.getD [])

/-- The address a listing contributes to the current address set
(getgems.py lines 170-174): `str(...)` of the truthy or-chain, `none`
when the chain is falsy and the listing is filtered out. -/
def goodAddr (it : Listing) : Option String :=
  if strOptTruthy (addrRaw it) then addrRaw it else none

/-- `current_addresses` (getgems.py lines 170-174). -/
def currentAddresses (items : List Listing) : Finset String :=
  (items.filterMap goodAddr).toFinset

/-- The Diff Engine: `new_addresses = current_addresses - previous_addresses`
(getgems.py line 176). -/
def newAddresses (items : List Listing) (prev : Finset String) : Finset String :=
  currentAddresses items \ prev

/-- The message the delivery loop produces for one listing (getgems.py
lines 183-192): skip listings with a falsy address, skip addresses not in
the new set, and send only truthy formatted messages. -/
def msgFor (avg_map : List (String × ℚ)) (newA : Finset String) (it : Listing) :
    Option String :=
  if strOptTruthy (addrRaw it) = false then none
  else if (addrRaw it).getD "" ∈ newA then
    match format_listing it avg_map with
    | some m => if m = "" then none else some m
    | none => none
  else none

/-- All messages the delivery loop tries to send, in batch order. -/
def tickMessages (items : List Listing) (avg_map : List (String × ℚ))
    (newA : Finset String) : List String :=
  items.filterMap (msgFor avg_map newA)

/-- The mutable state of the process: the module-level
`previous_addresses` set and `bot_data["chat_id"]`. -/
structure BotState where
  previous_addresses : Finset String
  chat_id : Option Int
deriving DecidableEq

/-- `if not chat_id: return` — the chat is usable when present and nonzero. -/
def chatTruthy (o : Option Int) : Bool :=
  match o with
  | some c => if c = 0 then false else true
  | none => false

/-- Outcome of one `monitor` invocation: the state after it, the messages
actually sent, and whether the job body ran to completion (`false` when a
`send_message` exception escaped it). -/
structure TickOut where
  state : BotState
  sent : List String
  ok : Bool
deriving DecidableEq

/-- The sequential send loop: `deliver k = false` means the k-th
`send_message` raises, aborting the loop; messages sent before the
failure are reported. -/
def runSends (msgs : List String) (deliver : ℕ → Bool) (k : ℕ) :
    List String × Bool :=
  match msgs with
  | [] => ([], true)
  | m :: rest =>
      if deliver k then
        let r := runSends rest deliver (k + 1)
        (m :: r.1, r.2)
      else ([], false)

/-- One `monitor` tick (getgems.py lines 155-194): no-op without a chat;
a fetch failure is caught and the tick ends with nothing changed; a
successful fetch diffs addresses, sends a message per new listing, and
replaces the baseline — unless a send raises, in which case the baseline
update on line 194 is never reached. -/
def tick (st : BotState) (fetched : Except String (List Listing))
    (deliver : ℕ → Bool) : TickOut :=
  if chatTruthy st.chat_id = false then ⟨st, [], true⟩
  else
    match fetched with
    | .error _ => ⟨st, [], true⟩
    | .ok items =>
        let avg_map := build_market_avg items
        let current := currentAddresses items
        let newA := newAddresses items st.previous_addresses
        if newA = ∅ then ⟨⟨current, st.chat_id⟩, [], true⟩
        else
          let r := runSends (tickMessages items avg_map newA) deliver 0
          if r.2 then ⟨⟨current, st.chat_id⟩, r.1, true⟩
          else ⟨st, r.1, false⟩

/-! ### Helper lemmas about the market averaging pipeline -/

/-- The price `it` contributes to the group of model `m`, if any. -/
def contribFor (m : String) (it : Listing) : Option ℚ :=
  match build_contrib it with
  | some mp => if mp.1 = m then some mp.2 else none
  | none => none

/-- All prices collected for model `m` over a batch, in batch order. -/
def modelPrices (items : List Listing) (m : String) : List ℚ :=
  items.filterMap (contribFor m)

/-- Append new prices to an optional existing group. -/
def optAppend (o : Option (List ℚ)) (l : List ℚ) : Option (List ℚ) :=
  match o with
  | some ps => some (ps ++ l)
  | none => if l = [] then none else some l

lemma dictGet_addToGroup_self (g : List (String × List ℚ)) (m : String) (p : ℚ) :
    dictGet (addToGroup g m p) m = some (((dictGet g m).getD []) ++ [p]) := by
  induction g with
  | nil => simp [addToGroup, dictGet]
  | cons e rest ih =>
      by_cases h : e.1 = m
      · simp [addToGroup, dictGet, h]
      · simp [addToGroup, dictGet, h, ih]

lemma dictGet_addToGroup_ne (g : List (String × List ℚ)) (m k : String) (p : ℚ)
    (h : m ≠ k) : dictGet (addToGroup g m p) k = dictGet g k := by
  induction g with
  | nil => simp [addToGroup, dictGet, h]
  | cons e rest ih =>
      by_cases he : e.1 = m
      · simp [addToGroup, dictGet, he, h]
      · have hkm : ¬ (k = m) := fun hh => h hh.symm
        by_cases hk : e.1 = k
        · simp [addToGroup, dictGet, he, hk, hkm]
        · simp [addToGroup, dictGet, he, hk, hkm, ih]

lemma build_groups_loop (items : List Listing) :
    ∀ (g : List (String × List ℚ)) (m : String),
      dictGet (items.foldl groupStep g) m = optAppend (dictGet g m) (modelPrices items m) := by
  induction items with
  | nil =>
      intro g m
      cases h : dictGet g m <;> simp [modelPrices, optAppend, h]
  | cons it rest ih =>
      intro g m
      have hfold : (it :: rest).foldl groupStep g = rest.foldl groupStep (groupStep g it) :=
        List.foldl_cons ..
      rw [hfold, ih]
      cases hc : build_contrib it with
      | none =>
          have h1 : groupStep g it = g := by simp [groupStep, hc]
          have h2 : modelPrices (it :: rest) m = modelPrices rest m := by
            simp [modelPrices, List.filterMap_cons, contribFor, hc]
          rw [h1, h2]
      | some mp =>
          by_cases hm : mp.1 = m
          · have h1 : groupStep g it = addToGroup g m mp.2 := by
              simp [groupStep, hc, hm]
            have h2 : modelPrices (it :: rest) m = mp.2 :: modelPrices rest m := by
              simp [modelPrices, List.filterMap_cons, contribFor, hc, hm]
            rw [h1, h2, dictGet_addToGroup_self]
            cases hg : dictGet g m <;> simp [optAppend, hg]
          · have h1 : groupStep g it = addToGroup g mp.1 mp.2 := by
              simp [groupStep, hc]
            have h2 : modelPrices (it :: rest) m = modelPrices rest m := by
              simp [modelPrices, List.filterMap_cons, contribFor, hc, hm]
            rw [h1, h2, dictGet_addToGroup_ne _ _ _ _ hm]

lemma dictGet_map {β γ : Type} (f : β → γ) (l : List (String × β)) (k : String) :
    dictGet (l.map (fun e => (e.1, f e.2))) k = (dictGet l k).map f := by
  induction l with
  | nil => simp [dictGet]
  | cons e rest ih =>
      by_cases h : e.1 = k <;> simp [dictGet, h, ih]

/-- The value `build_market_avg` associates with a model is exactly the
mean of the prices collected for that model, or absent when there are none. -/
lemma avg_lookup (items : List Listing) (m : String) :
    dictGet (build_market_avg items) m =
      if modelPrices items m = [] then none
      else some (listAvg (modelPrices items m)) := by
  have h1 : dictGet (build_market_avg items) m = (dictGet (build_groups items) m).map listAvg :=
    dictGet_map listAvg (build_groups items) m
  have h2 := build_groups_loop items [] m
  rw [h1]
  unfold build_groups
  rw [h2]
  by_cases h : modelPrices items m = [] <;> simp [dictGet, optAppend, h]

/-- The `or`-chain always evaluates to one of the three field values, so
when none of the three fields normalizes to a price, neither does the
chain. -/
lemma chain_none_of_fields_none (s : Sale) (h1 : ton_from_any s.fixPrice = none)
    (h2 : ton_from_any s.price = none) (h3 : ton_from_any s.fullPrice = none) :
    ton_from_any (buildRawPrice s) = none := by
  unfold buildRawPrice pyOr
  split_ifs <;> assumption

lemma build_contrib_eq_none (it : Listing)
    (h : pyStrOr it.name "" = "" ∨ ton_from_any (buildRawPrice it.sale) = none ∨
      (ton_from_any it.sale.fixPrice = none ∧ ton_from_any it.sale.price = none ∧
        ton_from_any it.sale.fullPrice = none)) :
    build_contrib it = none := by
  rcases h with h | h | ⟨h1, h2, h3⟩
  · simp [build_contrib, h]
  · simp [build_contrib, h]
  · simp [build_contrib, chain_none_of_fields_none it.sale h1 h2 h3]

lemma modelPrices_middle (l1 l2 : List Listing) (it : Listing) (m : String)
    (h : build_contrib it = none) :
    modelPrices (l1 ++ it :: l2) m = modelPrices (l1 ++ l2) m := by
  simp [modelPrices, List.filterMap_append, List.filterMap_cons, contribFor, h]

/-! ### Helper lemmas about `splitHash` -/

lemma splitHash_sound : ∀ (l a b : List Char),
    splitHash l = some (a, b) → l = a ++ ' ' :: '#' :: b := by
  intro l
  induction l with
  | nil => intro a b h; simp [splitHash] at h
  | cons c rest ih =>
      intro a b h
      cases rest with
      | nil => simp [splitHash] at h
      | cons c2 rest2 =>
          by_cases hc : c = ' ' ∧ c2 = '#'
          · rw [splitHash, if_pos hc] at h
            simp only [Option.some.injEq, Prod.mk.injEq] at h
            obtain ⟨h1, h2⟩ := h
            subst h1; subst h2
            obtain ⟨rfl, rfl⟩ := hc
            simp
          · rw [splitHash, if_neg hc] at h
            cases hs : splitHash (c2 :: rest2) with
            | none => rw [hs] at h; simp at h
            | some ab =>
                rw [hs] at h
                simp only [Option.some.injEq, Prod.mk.injEq] at h
                obtain ⟨h1, h2⟩ := h
                subst h1; subst h2
                have := ih ab.1 ab.2 hs
                simp [this]

lemma splitHash_first (a : List Char) :
    ∀ (b : List Char), (¬ ∃ c d, a = c ++ ' ' :: '#' :: d) →
      splitHash (a ++ ' ' :: '#' :: b) = some (a, b) := by
  induction a with
  | nil => intro b _; simp [splitHash]
  | cons c a' ih =>
      intro b hno
      cases ha' : a' with
      | nil =>
          have hc : ¬ (c = ' ' ∧ ' ' = '#') := by simp
          simp only [ha', List.nil_append, List.cons_append]
          rw [splitHash, if_neg hc]
          simp [splitHash]
      | cons c2 a'' =>
          have hca : ¬ (c = ' ' ∧ c2 = '#') := by
            rintro ⟨rfl, rfl⟩
            exact hno ⟨[], a'', by simp [ha']⟩
          have hno' : ¬ ∃ c d, a' = c ++ ' ' :: '#' :: d := by
            rintro ⟨cc, dd, rfl⟩
            exact hno ⟨c :: cc, dd, by simp⟩
          have ihr := ih b hno'
          rw [ha'] at ihr
          simp only [List.cons_append] at ihr ⊢
          rw [splitHash, if_neg hca, ihr]

lemma no_hash_no_occurrence (l : List Char) (h : '#' ∉ l) :
    ¬ ∃ c d, l = c ++ ' ' :: '#' :: d := by
  rintro ⟨c, d, rfl⟩
  exact h (by simp)

/-! ### Helper lemmas about the poll-loop tick -/

lemma runSends_all_delivered (d : ℕ → Bool) (hd : ∀ k, d k = true) :
    ∀ (msgs : List String) (k : ℕ), runSends msgs d k = (msgs, true) := by
  intro msgs
  induction msgs with
  | nil => intro k; simp [runSends]
  | cons m rest ih => intro k; simp [runSends, hd k, ih (k + 1)]

lemma tickMessages_empty (items : List Listing) (avg_map : List (String × ℚ)) :
    tickMessages items avg_map ∅ = [] := by
  have h : ∀ it, msgFor avg_map ∅ it = none := by
    intro it
    by_cases h1 : strOptTruthy (addrRaw it) = false <;> simp [msgFor, h1]
  simp [tickMessages, List.filterMap_eq_nil_iff, h]

/-- With every delivery returning normally, a successful tick replaces the
baseline with the current address set and sends exactly the loop's
messages, in both the empty-diff and nonempty-diff branches. -/
lemma tick_ok_all_delivered (st : BotState) (items : List Listing) (d : ℕ → Bool)
    (hc : chatTruthy st.chat_id = true) (hd : ∀ k, d k = true) :
    tick st (.ok items) d =
      ⟨⟨currentAddresses items, st.chat_id⟩,
       tickMessages items (build_market_avg items) (newAddresses items st.previous_addresses),
       true⟩ := by
  unfold tick
  rw [hc]
  by_cases h : newAddresses items st.previous_addresses = ∅
  · simp [h, tickMessages_empty]
  · simp only [Bool.true_eq_false, if_false, if_neg h]
    rw [runSends_all_delivered d hd]
    simp

/-- A successful tick that finds no new addresses still replaces the
baseline and sends nothing. -/
lemma tick_no_new (st : BotState) (items : List Listing) (d : ℕ → Bool)
    (hc : chatTruthy st.chat_id = true)
    (h : newAddresses items st.previous_addresses = ∅) :
    tick st (.ok items) d = ⟨⟨currentAddresses items, st.chat_id⟩, [], true⟩ := by
  unfold tick
  rw [hc]
  simp [h]

lemma tick_chat_id (st : BotState) (f : Except String (List Listing)) (d : ℕ → Bool) :
    (tick st f d).state.chat_id = st.chat_id := by
  unfold tick
  by_cases hc : chatTruthy st.chat_id = false
  · simp [hc]
  · simp only [hc, if_false]
    cases f with
    | error e => rfl
    | ok items =>
        by_cases h : newAddresses items st.previous_addresses = ∅
        · simp [h]
        · simp only [h, if_false]
          by_cases hr : (runSends (tickMessages items (build_market_avg items)
              (newAddresses items st.previous_addresses)) d 0).2 <;> simp [hr]

/-! ### Concrete fixtures used by witnesses and counterexamples -/

/-- Listing "A": name `"Fox #1"`, fixed price 2 TON in nano-units. -/
def listFoxA : Listing := ⟨some "A", none, some "Fox #1", ⟨.vnum 2000000000, .vnone, .vnone⟩⟩

/-- Listing "B": name `"Fox #2"`, fixed price 3 TON in nano-units. -/
def listFoxB : Listing := ⟨some "B", none, some "Fox #2", ⟨.vnum 3000000000, .vnone, .vnone⟩⟩

/-- A listing with no usable address (absent primary, empty fallback). -/
def noAddrListing : Listing := ⟨none, some "", some "Ghost #1", ⟨.vnum 1000000000, .vnone, .vnone⟩⟩

/-- A sale record whose fixed-price field is present but equal to zero. -/
def zeroFixSale : Sale := ⟨.vnum 0, .vnum 5000000000, .vnone⟩

/-- A listing whose model will have average zero in the fixture map. -/
def zeroAvgListing : Listing := ⟨some "X", none, some "Pepe #1", ⟨.vnum 1, .vnone, .vnone⟩⟩

/-! ### Claim C1 -/

/-- Claim C1, counterexample: a tick with a successful fetch and the chat
set, in which the only attempted delivery raises, ends with the baseline
NOT equal to the fetched batch's address set (the update on line 194 is
never reached), so the baseline is not updated "regardless of the outcome
of the individual message deliveries". -/
theorem claim1_counterexample :
    chatTruthy (some 1) = true ∧
    (tick ⟨∅, some 1⟩ (.ok [listFoxB]) (fun _ => false)).state.previous_addresses ≠
      currentAddresses [listFoxB] ∧
    (tick ⟨∅, some 1⟩ (.ok [listFoxB]) (fun _ => false)).ok = false := by
  decide

/-- Claim C1 (amended): for every tick in which the fetch succeeds, the
target chat is set, and every attempted delivery returns normally, the
tick completes with the baseline equal to exactly the current batch's
address set, whether or not any new addresses were found. -/
theorem claim1_baseline_updated (st : BotState) (items : List Listing)
    (d : ℕ → Bool) (hc : chatTruthy st.chat_id = true) (hd : ∀ k, d k = true) :
    (tick st (.ok items) d).state.previous_addresses = currentAddresses items ∧
    (tick st (.ok items) d).ok = true := by
  rw [tick_ok_all_delivered st items d hc hd]
  exact ⟨rfl, rfl⟩

/-- Claim C1, witness: the amended theorem applied at a concrete state
and batch with all deliveries succeeding. -/
theorem claim1_witness :
    (tick ⟨∅, some 1⟩ (.ok [listFoxB]) (fun _ => true)).state.previous_addresses =
      currentAddresses [listFoxB] ∧
    (tick ⟨∅, some 1⟩ (.ok [listFoxB]) (fun _ => true)).ok = true :=
  claim1_baseline_updated ⟨∅, some 1⟩ [listFoxB] (fun _ => true) (by decide)
    (fun _ => rfl)

/-! ### Claim C2 -/

/-- Claim C2: the Diff Engine output is exactly the set difference
`current \ previous` under string equality, and a listing whose primary
and fallback address fields are both unretrievable (absent or empty)
contributes to no address set, is skipped by the delivery loop, and is
never formatted into a message. -/
theorem claim2_diff_engine (items l1 l2 : List Listing) (prev : Finset String)
    (it : Listing) (avgm : List (String × ℚ)) (newA : Finset String)
    (h : strOptTruthy it.address = false ∧ strOptTruthy it.nftAddress = false) :
    newAddresses items prev = currentAddresses items \ prev ∧
    currentAddresses (l1 ++ it :: l2) = currentAddresses (l1 ++ l2) ∧
    tickMessages (l1 ++ it :: l2) avgm newA = tickMessages (l1 ++ l2) avgm newA ∧
    format_listing it avgm = none := by
  obtain ⟨h1, h2⟩ := h
  have haddr : strOptTruthy (addrRaw it) = false := by
    simp [addrRaw, h1, h2]
  refine ⟨rfl, ?_, ?_, ?_⟩
  · have hg : goodAddr it = none := by simp [goodAddr, haddr]
    simp [currentAddresses, List.filterMap_append, List.filterMap_cons, hg]
  · have hm : msgFor avgm newA it = none := by simp [msgFor, haddr]
    simp [tickMessages, List.filterMap_append, List.filterMap_cons, hm]
  · simp [format_listing, haddr]

/-- Claim C2, witness: the theorem applied to a concrete batch around a
listing with an absent primary address and an empty fallback address. -/
theorem claim2_witness :
    newAddresses [listFoxB] ∅ = currentAddresses [listFoxB] \ ∅ ∧
    currentAddresses ([listFoxA] ++ noAddrListing :: [listFoxB]) =
      currentAddresses ([listFoxA] ++ [listFoxB]) ∧
    tickMessages ([listFoxA] ++ noAddrListing :: [listFoxB]) [] {"B"} =
      tickMessages ([listFoxA] ++ [listFoxB]) [] {"B"} ∧
    format_listing noAddrListing [] = none :=
  claim2_diff_engine [listFoxB] [listFoxA] [listFoxB] ∅ noAddrListing [] {"B"}
    (by decide)

/-! ### Claim C3 -/

/-- Claim C3, counterexample: the claim reads the rescale guard as "parsed
magnitude exceeds 1,000,000", but the code compares the signed value:
`-2_000_000_000` has magnitude above the threshold yet is returned
unchanged, not divided by 1e9. -/
theorem claim3_counterexample :
    pyFloatStr (.vnum (-2000000000)) = some (-2000000000) ∧
    |(-2000000000 : ℚ)| > 1000000 ∧
    ton_from_any (.vnum (-2000000000)) = some (-2000000000) ∧
    (-2000000000 : ℚ) ≠ (-2000000000 : ℚ) / 1000000000 := by
  refine ⟨rfl, by norm_num, by decide, by norm_num⟩

/-- Claim C3 (amended): normalization yields no value exactly when the
input is absent or fails to parse; a parsed value strictly above
1,000,000 (signed comparison) is divided by 1e9; any other parsed value,
negative ones of any magnitude included, is returned unchanged. -/
theorem claim3_normalizer (v : PyVal) :
    (pyFloatStr v = none → ton_from_any v = none) ∧
    (∀ x : ℚ, pyFloatStr v = some x →
      ton_from_any v = some (if x > 1000000 then x / 1000000000 else x)) := by
  cases v with
  | vnone =>
      exact ⟨fun _ => rfl, fun x hx => by simp [pyFloatStr] at hx⟩
  | vnum q =>
      refine ⟨fun h => by simp [pyFloatStr] at h, fun x hx => ?_⟩
      simp only [pyFloatStr, Option.some.injEq] at hx
      subst hx
      by_cases h : q > 1000000 <;> simp [ton_from_any, pyFloatStr, h]
  | vstr s =>
      constructor
      · intro h
        simp only [pyFloatStr] at h
        simp [ton_from_any, pyFloatStr, h]
      · intro x hx
        simp only [pyFloatStr] at hx
        by_cases h : x > 1000000 <;> simp [ton_from_any, pyFloatStr, hx, h]
  | vbool b =>
      exact ⟨fun _ => rfl, fun x hx => by simp [pyFloatStr] at hx⟩

/-- Claim C3, witness: the amended theorem applied to a non-numeric
string, a large nano-denominated value, and a small value. -/
theorem claim3_witness :
    ton_from_any (.vstr "abc") = none ∧
    ton_from_any (.vnum 2000000000) = some ((2000000000 : ℚ) / 1000000000) ∧
    ton_from_any (.vnum 5) = some 5 := by
  refine ⟨(claim3_normalizer (.vstr "abc")).1 (by decide), ?_, ?_⟩
  · have h := (claim3_normalizer (.vnum 2000000000)).2 2000000000 rfl
    rw [h, if_pos (by decide : (2000000000 : ℚ) > 1000000)]
  · have h := (claim3_normalizer (.vnum 5)).2 5 rfl
    rw [h, if_neg (by decide : ¬ (5 : ℚ) > 1000000)]

/-! ### Claim C4 -/

/-- Claim C4: the market average map is permutation-invariant as a
key-value mapping; every model's value is the arithmetic mean of the
prices collected for it (so a singleton group's average is that price);
and a listing with an empty-or-missing name or an unresolvable price
contributes to no average wherever it sits in the batch. -/
theorem claim4_market_avg (items items2 : List Listing) (hp : items.Perm items2) :
    (∀ m, dictGet (build_market_avg items) m = dictGet (build_market_avg items2) m) ∧
    (∀ m a, dictGet (build_market_avg items) m = some a →
      a = (modelPrices items m).sum / (modelPrices items m).length) ∧
    (∀ m p, modelPrices items m = [p] → dictGet (build_market_avg items) m = some p) ∧
    (∀ (it : Listing) (l1 l2 : List Listing),
      (pyStrOr it.name "" = "" ∨ ton_from_any (buildRawPrice it.sale) = none ∨
        (ton_from_any it.sale.fixPrice = none ∧ ton_from_any it.sale.price = none ∧
          ton_from_any it.sale.fullPrice = none)) →
      ∀ m, dictGet (build_market_avg (l1 ++ it :: l2)) m =
        dictGet (build_market_avg (l1 ++ l2)) m) := by
  refine ⟨?_, ?_, ?_, ?_⟩
  · intro m
    have hmp : (modelPrices items m).Perm (modelPrices items2 m) := hp.filterMap _
    rw [avg_lookup, avg_lookup]
    by_cases h : modelPrices items m = []
    · have h2 : modelPrices items2 m = [] := by
        rw [h] at hmp
        exact hmp.symm.eq_nil
      rw [if_pos h, if_pos h2]
    · have h2 : modelPrices items2 m ≠ [] := by
        intro hh
        rw [hh] at hmp
        exact h hmp.eq_nil
      rw [if_neg h, if_neg h2]
      unfold listAvg
      rw [hmp.sum_eq, hmp.length_eq]
  · intro m a ha
    rw [avg_lookup] at ha
    by_cases h : modelPrices items m = []
    · rw [if_pos h] at ha
      exact absurd ha (by simp)
    · rw [if_neg h] at ha
      simp only [Option.some.injEq] at ha
      rw [← ha]
      rfl
  · intro m p hmp1
    rw [avg_lookup, hmp1]
    simp [listAvg]
  · intro it l1 l2 hex m
    have hc := build_contrib_eq_none it hex
    rw [avg_lookup, avg_lookup, modelPrices_middle l1 l2 it m hc]

/-- Claim C4, witness: the theorem applied to the two orderings of a
concrete two-listing batch and to a concrete singleton group. -/
theorem claim4_witness :
    dictGet (build_market_avg [listFoxB, listFoxA]) "Fox" =
      dictGet (build_market_avg [listFoxA, listFoxB]) "Fox" ∧
    dictGet (build_market_avg [listFoxA]) "Fox" = some 2 := by
  constructor
  · exact (claim4_market_avg [listFoxB, listFoxA] [listFoxA, listFoxB]
      (List.Perm.swap listFoxA listFoxB [])).1 "Fox"
  · exact (claim4_market_avg [listFoxA] [listFoxA] (List.Perm.refl _)).2.2.1 "Fox" 2
      (by decide)

/-! ### Claim C5 -/

/-- Claim C5, counterexample: with a present fixed-price field equal to 0
and a present price field, the spec's "first available" rule picks the 0,
but both code sites' `or`-chains skip the falsy 0 and pick the price
field, yielding a different normalized price. -/
theorem claim5_counterexample :
    specFirstAvailable zeroFixSale = .vnum 0 ∧
    buildRawPrice zeroFixSale = .vnum 5000000000 ∧
    formatRawPrice zeroFixSale = .vnum 5000000000 ∧
    buildRawPrice zeroFixSale ≠ specFirstAvailable zeroFixSale ∧
    ton_from_any (buildRawPrice zeroFixSale) ≠
      ton_from_any (specFirstAvailable zeroFixSale) := by
  refine ⟨rfl, rfl, rfl, by decide, ?_⟩
  show some ((5000000000 : ℚ) / 1000000000) ≠ some 0
  simp only [Ne, Option.some.injEq]
  norm_num

/-- Claim C5 (amended): the market averager and the message formatter
resolve the raw price through the same chain, and that chain takes the
first truthy (present, non-null, non-zero, non-empty) field among
fixed price, price, and full price, in that order — not merely the first
present one. -/
theorem claim5_price_precedence (s : Sale) :
    formatRawPrice s = buildRawPrice s ∧
    buildRawPrice s =
      (if pyTruthy s.fixPrice then s.fixPrice
       else if pyTruthy s.price then s.price
       else s.fullPrice) := by
  exact ⟨rfl, rfl⟩

/-! ### Claim C6 -/

/-- Claim C6: when the display name decomposes around a first occurrence
of the substring `" #"`, model extraction returns the part before it,
stripped of surrounding whitespace; when no such occurrence exists it
returns the whole name stripped. -/
theorem claim6_extract_model (name : String) :
    (∀ a b : List Char, name.data = a ++ ' ' :: '#' :: b →
      (¬ ∃ c d, a = c ++ ' ' :: '#' :: d) → extract_model name = pyStrip ⟨a⟩) ∧
    ((¬ ∃ a b, name.data = a ++ ' ' :: '#' :: b) → extract_model name = pyStrip name) := by
  constructor
  · intro a b hdecomp hno
    have hs : splitHash name.data = some (a, b) := by
      rw [hdecomp]
      exact splitHash_first a b hno
    unfold extract_model
    rw [hs]
  · intro hno
    have hs : splitHash name.data = none := by
      cases h : splitHash name.data with
      | none => rfl
      | some ab =>
          exact absurd ⟨ab.1, ab.2, splitHash_sound name.data ab.1 ab.2 (by rw [h])⟩ hno
    unfold extract_model
    rw [hs]

/-- Claim C6, witness: the theorem applied to a name with a serial suffix
and to one without. -/
theorem claim6_witness :
    extract_model "Fox #12" = "Fox" ∧ extract_model " Pepe " = "Pepe" := by
  constructor
  · have h := (claim6_extract_model "Fox #12").1 ['F', 'o', 'x'] ['1', '2'] (by decide)
      (no_hash_no_occurrence _ (by decide))
    rw [h]
    decide
  · have h := (claim6_extract_model " Pepe ").2 (no_hash_no_occurrence _ (by decide))
    rw [h]
    decide

/-! ### Claim C7 -/

/-- Claim C7: a tick whose fetch fails — a non-200 upstream status (which
makes the fetcher raise) or any other fetch exception such as a network
error or timeout — ends early with the baseline unchanged, zero messages
sent, and the exception recovered inside the tick. -/
theorem claim7_fetch_failure (st : BotState) (d : ℕ → Bool) (e : String)
    (r : HttpResponse) (hr : r.status ≠ 200) :
    tick st (.error e) d = ⟨st, [], true⟩ ∧
    tick st (fetch_gifts r) d = ⟨st, [], true⟩ := by
  have herr : ∀ msg, tick st (.error msg) d = ⟨st, [], true⟩ := by
    intro msg
    unfold tick
    by_cases hc : chatTruthy st.chat_id = false <;> simp [hc]
  refine ⟨herr e, ?_⟩
  unfold fetch_gifts
  rw [if_pos hr]
  exact herr _

/-- Claim C7, witness: the theorem applied to a concrete state, a concrete
exception, and a concrete 500 response. -/
theorem claim7_witness :
    tick ⟨{"A"}, some 1⟩ (.error "boom") (fun _ => true) = ⟨⟨{"A"}, some 1⟩, [], true⟩ ∧
    tick ⟨{"A"}, some 1⟩ (fetch_gifts ⟨500, "oops", none⟩) (fun _ => true) =
      ⟨⟨{"A"}, some 1⟩, [], true⟩ :=
  claim7_fetch_failure ⟨{"A"}, some 1⟩ (fun _ => true) "boom" ⟨500, "oops", none⟩
    (by decide)

/-! ### Claim C8 -/

/-- Claim C8, counterexample: with the chat set and both fetches
succeeding on the same batch, a delivery that raises during the first
tick leaves the baseline behind, so the second run reports the same
address again and sends a message. -/
theorem claim8_counterexample :
    chatTruthy (some 1) = true ∧
    (tick (tick ⟨∅, some 1⟩ (.ok [listFoxB]) (fun _ => false)).state
      (.ok [listFoxB]) (fun _ => true)).sent ≠ [] := by
  decide

/-- Claim C8 (amended): running a tick twice against the same unchanged
batch, with the chat set, both fetches succeeding, and every delivery of
the first tick returning normally, yields an empty new-address set and
zero messages on the second run. -/
theorem claim8_idempotent (st : BotState) (items : List Listing)
    (d1 d2 : ℕ → Bool) (hc : chatTruthy st.chat_id = true)
    (hd : ∀ k, d1 k = true) :
    newAddresses items (tick st (.ok items) d1).state.previous_addresses = ∅ ∧
    (tick (tick st (.ok items) d1).state (.ok items) d2).sent = [] := by
  have h1 := tick_ok_all_delivered st items d1 hc hd
  have hprev : (tick st (.ok items) d1).state.previous_addresses =
      currentAddresses items := by rw [h1]
  have hnew : newAddresses items (tick st (.ok items) d1).state.previous_addresses = ∅ := by
    rw [hprev]
    unfold newAddresses
    exact Finset.sdiff_self _
  have hc1 : chatTruthy (tick st (.ok items) d1).state.chat_id = true := by
    rw [tick_chat_id]
    exact hc
  refine ⟨hnew, ?_⟩
  rw [tick_no_new _ items d2 hc1 hnew]

/-- Claim C8, witness: the amended theorem applied at a concrete state
and batch with all first-tick deliveries succeeding. -/
theorem claim8_witness :
    newAddresses [listFoxB]
      (tick ⟨∅, some 1⟩ (.ok [listFoxB]) (fun _ => true)).state.previous_addresses = ∅ ∧
    (tick (tick ⟨∅, some 1⟩ (.ok [listFoxB]) (fun _ => true)).state
      (.ok [listFoxB]) (fun _ => true)).sent = [] :=
  claim8_idempotent ⟨∅, some 1⟩ [listFoxB] (fun _ => true) (fun _ => true)
    (by decide) (fun _ => rfl)

/-! ### Claim C9 -/

/-- Claim C9: from baseline `{"A"}`, the batch `[A: Fox #1 @ 2e9 nano,
B: Fox #2 @ 3e9 nano]` produces exactly one message, for address "B",
with price 3.00 TON, the model average 2.50 TON computed over the full
batch of model "Fox", and an above-market note of 20.0%. -/
theorem claim9_scenario :
    tick ⟨{"A"}, some 1⟩ (.ok [listFoxA, listFoxB]) (fun _ => true) =
      ⟨⟨{"A", "B"}, some 1⟩,
       ["⚡ НОВЫЙ GIFTS ЛИСТИНГ\nFox #2\nЦена: 3.00 TON\nСредняя по модели: 2.50 TON\n⚠️ Дороже рынка на 20.0%\n🔗 https://getgems.io/nft/B"],
       true⟩ := by
  decide

/-! ### Claim C10 -/

/-- Claim C10: the formatter never takes the percentage branch when the
looked-up average is exactly zero or when price or average is
unresolved — the directional note is empty while the header, name, price
line, average line and link are still rendered (for a listing with a
resolvable address; without one the formatter returns `none`, never
failing). -/
theorem claim10_formatter_safe (it : Listing) (m : List (String × ℚ))
    (h : dictGet m (extract_model (pyStrOr it.name "(no name)")) = some 0 ∨
      ton_from_any (formatRawPrice it.sale) = none ∨
      dictGet m (extract_model (pyStrOr it.name "(no name)")) = none) :
    (strOptTruthy (addrRaw it) = true →
      format_listing it m =
        some (renderMsg (pyStrOr it.name "(no name)")
          (priceText (ton_from_any (formatRawPrice it.sale)))
          (priceText (dictGet m (extract_model (pyStrOr it.name "(no name)"))))
          "" (nft_link ((addrRaw it).getD "")))) ∧
    (strOptTruthy (addrRaw it) = false → format_listing it m = none) := by
  have hdiff : diffText (ton_from_any (formatRawPrice it.sale))
      (dictGet m (extract_model (pyStrOr it.name "(no name)"))) = "" := by
    rcases h with h | h | h
    · rw [h]
      cases hp : ton_from_any (formatRawPrice it.sale) <;> simp [diffText]
    · rw [h]
      cases ha : dictGet m (extract_model (pyStrOr it.name "(no name)")) <;>
        simp [diffText]
    · rw [h]
      cases hp : ton_from_any (formatRawPrice it.sale) <;> simp [diffText]
  constructor
  · intro ht
    simp [format_listing, ht, hdiff]
  · intro hf
    simp [format_listing, hf]

/-- Claim C10, witness: the theorem applied to a listing whose model
average in the fixture map is exactly zero — the note is omitted and the
rest of the message is rendered. -/
theorem claim10_witness :
    format_listing zeroAvgListing [("Pepe", 0)] =
      some "⚡ НОВЫЙ GIFTS ЛИСТИНГ\nPepe #1\nЦена: 1.00 TON\nСредняя по модели: 0.00 TON\n🔗 https://getgems.io/nft/X" := by
  have h := (claim10_formatter_safe zeroAvgListing [("Pepe", 0)]
    (Or.inl (by decide))).1 (by decide)
  rw [h]
  decide
